import Mathlib

/-!
Verification development for the `ClusterManagerWorkflow` of
`updates_and_signals/atomic_message_handlers/workflow.py`.

The workflow state and its handlers are embedded shallowly:

* The Python dict `nodes : Dict[str, Optional[str]]` becomes an association
  list `NodeTable`; `dictSet` mirrors Python dict assignment (update the
  first occurrence in place, append at the end when the key is new — the
  insertion-order semantics of Python dicts), `dictGet` mirrors lookup.
* The external activities (`allocate_nodes_to_job`, `deallocate_nodes_for_job`,
  `find_bad_nodes`) are opaque remote calls; their outcome is passed to each
  handler as an explicit argument (`actOk : Bool`, or the returned bad-node
  list / `none` for a failure of the health-check activity).
* `await workflow.wait_condition(lambda: self.state.cluster_started)` at the
  top of the update handlers suspends the handler until the cluster is
  started; this is modelled by `applyOp`, which runs a handler's body only in
  states with `cluster_started = true` (a pending handler has not yet touched
  the state).
* Handlers run under `nodes_lock`, so each handler body is atomic with
  respect to the others; a trace of the entity is a list of handler/signal
  executions (`ClusterOp`) folded over the state.
* Python's `None` value for the not-yet-started `nodes` field is kept as
  `Option NodeTable`; `nodesOf` reads it with `[]` as the (unreachable while
  started) default.
* Python ints are `Int`; `unassigned_nodes[: input.num_nodes]` is the Python
  slice `pySlice`, which for a negative bound drops that many elements from
  the end.
-/

set_option maxHeartbeats 1000000

/-- Association-list model of the Python dict `Dict[str, Optional[str]]`:
entries in insertion order, value `none` = free, `some job` = assigned,
`some "BAD!"` = the unhealthy sentinel. -/
abbrev NodeTable := List (String × Option String)

/-- Python dict lookup: value of the first entry with the given key. -/
def dictGet : NodeTable → String → Option (Option String)
  | [], _ => none
  | (k0, v0) :: rest, k => if k0 = k then some v0 else dictGet rest k

/-- Python dict assignment `d[k] = v`: replace the value of the first entry
with key `k`, or append a new entry when the key is absent. -/
def dictSet : NodeTable → String → Option String → NodeTable
  | [], k, v => [(k, v)]
  | (k0, v0) :: rest, k, v =>
      if k0 = k then (k0, v) :: rest else (k0, v0) :: dictSet rest k v

/-- The `for node in ns: self.state.nodes[node] = v` loops of the handlers. -/
def setAll (d : NodeTable) (ks : List String) (v : Option String) : NodeTable :=
  ks.foldl (fun acc k => dictSet acc k v) d

/-- The key list of the table (Python `nodes.keys()`, iteration order). -/
def tableKeys (d : NodeTable) : List String := d.map Prod.fst

/-- `len([k for k, v in d.items() if v is not None])` — the count of
non-free entries (assigned to a job or carrying the `"BAD!"` sentinel). -/
def numNonFreeT (d : NodeTable) : Nat :=
  (d.filter (fun kv => decide (kv.2 ≠ none))).length

/-- Python list slice `xs[:n]`: for `n ≥ 0` the first `n` elements, for
`n < 0` everything but the last `|n|` elements (clamped at the ends). -/
def pySlice (xs : List α) (n : Int) : List α :=
  if 0 ≤ n then xs.take n.toNat else xs.take (xs.length - (-n).toNat)

/-- `ClusterManagerState` dataclass (workflow.py lines 26–31). -/
structure ClusterManagerState where
  cluster_started : Bool := false
  cluster_shutdown : Bool := false
  nodes : Option NodeTable := none
  max_assigned_nodes : Int := 0
deriving DecidableEq, Repr

/-- `ClusterManagerAllocateNNodesToJobInput` dataclass. -/
structure ClusterManagerAllocateNNodesToJobInput where
  num_nodes : Int
  task_name : String
deriving DecidableEq, Repr

/-- `ClusterManagerDeleteJobInput` dataclass. -/
structure ClusterManagerDeleteJobInput where
  task_name : String
deriving DecidableEq, Repr

/-- The node table of a state; Python would raise on `None.items()`, but
every handler body runs only after `start_cluster` populated `nodes`, so the
`[]` default is never the value read in a reachable handler execution. -/
def nodesOf (s : ClusterManagerState) : NodeTable := s.nodes.getD []

/-- Failure outcomes of the update handlers: the two `ApplicationError`
raises of the source (carrying, for the capacity failure, the requested and
available counts that the source interpolates into its message), and the
propagated fault of a failed activity. -/
inductive UpdateError where
  | rejected (msg : String)
  | insufficientCapacity (requested : Int) (available : Nat)
  | activityFault
deriving DecidableEq, Repr

/-- `start_cluster` signal (lines 68–72): set the started flag and create the
25-node all-free table keyed `"0"` … `"24"` in insertion order. -/
def start_cluster (s : ClusterManagerState) : ClusterManagerState :=
  { s with
      cluster_started := true,
      nodes := some ((List.range 25).map (fun k => (toString k, none))) }

/-- `shutdown_cluster` signal body (lines 74–78); its
`wait_condition(cluster_started)` gate is applied by `applyOp`. -/
def shutdown_cluster (s : ClusterManagerState) : ClusterManagerState :=
  { s with cluster_shutdown := true }

/-- `[k for k, v in self.state.nodes.items() if v is None]` (line 94). -/
def unassignedOf (s : ClusterManagerState) : List String :=
  ((nodesOf s).filter (fun kv => decide (kv.2 = none))).map Prod.fst

/-- `allocate_n_nodes_to_job` update handler body (lines 80–118), run once
its `wait_condition(cluster_started)` gate has passed, with the outcome of
the `allocate_nodes_to_job` activity supplied as `actOk`.  On success the
selected nodes are written by `_allocate_nodes_to_job` and
`max_assigned_nodes` is recomputed from the mutated table; on any failure
the handler raises before mutating anything. -/
def allocate_n_nodes_to_job (actOk : Bool)
    (input : ClusterManagerAllocateNNodesToJobInput) (s : ClusterManagerState) :
    Except UpdateError (ClusterManagerState × List String) :=
  if s.cluster_shutdown then
    Except.error (UpdateError.rejected
      "Cannot allocate nodes to a job: Cluster is already shut down")
  else
    let unassigned_nodes := unassignedOf s
    if (unassigned_nodes.length : Int) < input.num_nodes then
      Except.error (UpdateError.insufficientCapacity input.num_nodes
        unassigned_nodes.length)
    else
      let assigned_nodes := pySlice unassigned_nodes input.num_nodes
      if actOk then
        let newNodes := setAll (nodesOf s) assigned_nodes (some input.task_name)
        Except.ok
          ({ s with
              nodes := some newNodes,
              max_assigned_nodes :=
                max s.max_assigned_nodes (numNonFreeT newNodes : Int) },
            assigned_nodes)
      else
        Except.error UpdateError.activityFault

/-- `[k for k, v in self.state.nodes.items() if v == input.task_name]`
(lines 130–132). -/
def jobNodesOf (s : ClusterManagerState) (task_name : String) : List String :=
  ((nodesOf s).filter (fun kv => decide (kv.2 = some task_name))).map Prod.fst

/-- `delete_job` update handler body (lines 120–143), run once started, with
the `deallocate_nodes_for_job` activity outcome as `actOk`. -/
def delete_job (actOk : Bool) (input : ClusterManagerDeleteJobInput)
    (s : ClusterManagerState) : Except UpdateError ClusterManagerState :=
  if s.cluster_shutdown then
    Except.error (UpdateError.rejected
      "Cannot delete a job: Cluster is already shut down")
  else
    let nodes_to_free := jobNodesOf s input.task_name
    if actOk then
      Except.ok { s with nodes := some (setAll (nodesOf s) nodes_to_free none) }
    else
      Except.error UpdateError.activityFault

/-- `get_assigned_nodes` (lines 145–146):
`[k for k, v in nodes.items() if v is not None and v != "BAD!"]`. -/
def get_assigned_nodes (s : ClusterManagerState) : List String :=
  ((nodesOf s).filter
    (fun kv => decide (kv.2 ≠ none ∧ kv.2 ≠ some "BAD!"))).map Prod.fst

/-- The `maximum_attempts` of the `RetryPolicy` on the `find_bad_nodes`
activity call (line 157): the health check is attempted once, never retried. -/
def health_check_maximum_attempts : Nat := 1

/-- `perform_health_checks` (lines 148–160): with the lock held, call the
`find_bad_nodes` activity on the currently assigned nodes and mark each
returned node `"BAD!"`.  `actResult = none` models the single activity
attempt failing: the source has no `try`/`except` around
`workflow.execute_activity`, so the `ActivityError` propagates out of
`perform_health_checks` (to `run`) and no node is marked. -/
def perform_health_checks (actResult : Option (List String))
    (s : ClusterManagerState) : Except Unit ClusterManagerState :=
  match actResult with
  | none => Except.error ()
  | some bad_nodes =>
      Except.ok { s with nodes := some (setAll (nodesOf s) bad_nodes (some "BAD!")) }

/-- `should_continue_as_new` (lines 174–186).  `lockHeld` is
`self.nodes_lock.locked()`, `casSuggested` is
`workflow.info().is_continue_as_new_suggested()`, `max_history_length` is the
test-mode ceiling (`None` in production; Python's `x and y` makes a ceiling
of `0` falsy), `current_history_length` is
`workflow.info().get_current_history_length()`. -/
def should_continue_as_new (lockHeld : Bool) (casSuggested : Bool)
    (max_history_length : Option Nat) (current_history_length : Nat) : Bool :=
  if lockHeld then false
  else if casSuggested then true
  else
    match max_history_length with
    | some m => decide (m ≠ 0 ∧ m < current_history_length)
    | none => false

/-- The action taken by one iteration of the `run` loop after its bounded
wait (lines 195–214): break on shutdown, otherwise continue-as-new exactly
when `should_continue_as_new` holds, otherwise loop again. -/
inductive LoopAction where
  | terminate
  | continueAsNew
  | loopAgain
deriving DecidableEq, Repr

/-- The decision at lines 205–214 of `run`. -/
def run_loop_decision (cluster_shutdown : Bool) (lockHeld : Bool)
    (casSuggested : Bool) (max_history_length : Option Nat)
    (current_history_length : Nat) : LoopAction :=
  if cluster_shutdown then LoopAction.terminate
  else if should_continue_as_new lockHeld casSuggested max_history_length
      current_history_length then LoopAction.continueAsNew
  else LoopAction.loopAgain

/-- One externally observable operation on the entity: a signal delivery, an
update-handler execution (with its activity outcome), or one health-check
round (with the bad-node list returned by `find_bad_nodes`, `none` when the
single attempt failed). -/
inductive ClusterOp where
  | startCluster
  | shutdownCluster
  | allocate (actOk : Bool) (num_nodes : Int) (task_name : String)
  | deleteJob (actOk : Bool) (task_name : String)
  | healthCheck (actResult : Option (List String))
deriving DecidableEq, Repr

/-- Effect of one operation on the state.  Handlers gated on
`wait_condition(cluster_started)` leave the state untouched while the
cluster is unstarted (the handler is still suspended); a handler that raises
leaves the state exactly as it was (every raise in the source happens before
any mutation). -/
def applyOp (s : ClusterManagerState) (op : ClusterOp) : ClusterManagerState :=
  match op with
  | ClusterOp.startCluster => start_cluster s
  | ClusterOp.shutdownCluster =>
      if s.cluster_started then shutdown_cluster s else s
  | ClusterOp.allocate actOk num_nodes task_name =>
      if s.cluster_started then
        match allocate_n_nodes_to_job actOk ⟨num_nodes, task_name⟩ s with
        | Except.ok (s1, _) => s1
        | Except.error _ => s
      else s
  | ClusterOp.deleteJob actOk task_name =>
      if s.cluster_started then
        match delete_job actOk ⟨task_name⟩ s with
        | Except.ok s1 => s1
        | Except.error _ => s
      else s
  | ClusterOp.healthCheck actResult =>
      if s.cluster_started then
        match perform_health_checks actResult s with
        | Except.ok s1 => s1
        | Except.error _ => s
      else s

/-- Fold a trace of operations over a state. -/
def runOps (s : ClusterManagerState) (ops : List ClusterOp) : ClusterManagerState :=
  ops.foldl applyOp s

/-- Environment faithfulness of one operation: the `find_bad_nodes` activity
returns a subset of the candidate set it was given (`get_assigned_nodes`),
as its implementation (a filter of `nodes_to_check`) guarantees.  All other
operations carry no environment-provided data about the table. -/
def validOp (s : ClusterManagerState) (op : ClusterOp) : Bool :=
  match op with
  | ClusterOp.healthCheck (some bad_nodes) =>
      bad_nodes.all (fun n => decide (n ∈ get_assigned_nodes s))
  | _ => true

/-- Environment faithfulness of a whole trace. -/
def validOps : ClusterManagerState → List ClusterOp → Bool
  | _, [] => true
  | s, op :: rest => validOp s op && validOps (applyOp s op) rest

/-- The fresh Python object: `ClusterManagerState()` with dataclass
defaults. -/
def initialState : ClusterManagerState := {}

/-- The state right after the `start_cluster` signal on a fresh entity. -/
def freshStarted : ClusterManagerState := start_cluster initialState

/-- Count of non-free nodes of a state (what line 107 of the source counts
when recomputing `max_assigned_nodes`). -/
def numNonFree (s : ClusterManagerState) : Nat := numNonFreeT (nodesOf s)

/-- Historical maximum, over the trace `s, applyOp s op₁, …`, of the
non-free node count (assigned or unhealthy-marked). -/
def histPeak : ClusterManagerState → List ClusterOp → Nat
  | s, [] => numNonFree s
  | s, op :: rest => max (numNonFree s) (histPeak (applyOp s op) rest)

/-- Historical maximum of the count of simultaneously assigned
non-unhealthy nodes (the quantity the spec's `peakAssigned` sentence names). -/
def histPeakAssigned : ClusterManagerState → List ClusterOp → Nat
  | s, [] => (get_assigned_nodes s).length
  | s, op :: rest =>
      max (get_assigned_nodes s).length (histPeakAssigned (applyOp s op) rest)

/-- The node identities returned to the update caller by one operation
(non-empty only for a successful allocation executed on a started cluster). -/
def allocStepResults (s : ClusterManagerState) : ClusterOp → List String
  | ClusterOp.allocate actOk num_nodes task_name =>
      if s.cluster_started then
        match allocate_n_nodes_to_job actOk ⟨num_nodes, task_name⟩ s with
        | Except.ok (_, r) => r
        | Except.error _ => []
      else []
  | _ => []

def allocResults : ClusterManagerState → List ClusterOp → List String
  | _, [] => []
  | s, op :: rest => allocStepResults s op ++ allocResults (applyOp s op) rest

/-- Operations under which the unhealthy sentinel is actually terminal in
the code: everything except a repeated `start_cluster` signal (which resets
the whole table to free) and a `delete_job` whose job name collides with the
sentinel string itself. -/
def opKeepsUnhealthy : ClusterOp → Bool
  | ClusterOp.startCluster => false
  | ClusterOp.deleteJob _ task_name => decide (task_name ≠ "BAD!")
  | _ => true

/-- Restriction to the allocate/delete update handlers (the operation set of
the pool-bound property). -/
def opAllocDel : ClusterOp → Bool
  | ClusterOp.allocate _ _ _ => true
  | ClusterOp.deleteJob _ _ => true
  | _ => false

/-- A trace that allocates one node, has the health check mark it unhealthy,
and allocates again: exhibits that `max_assigned_nodes` also counts
unhealthy-marked nodes. -/
def peakOps : List ClusterOp :=
  [ClusterOp.allocate true 1 "j1", ClusterOp.healthCheck (some ["0"]),
    ClusterOp.allocate true 1 "j2"]

/-- A trace after which node `"0"` carries the unhealthy sentinel. -/
def unhealthyOps : List ClusterOp :=
  [ClusterOp.allocate true 1 "j1", ClusterOp.healthCheck (some ["0"])]

/-- Allocate/delete operations used to instantiate the trace theorems. -/
def sampleAllocDelOps : List ClusterOp :=
  [ClusterOp.allocate true 2 "a", ClusterOp.deleteJob true "a",
    ClusterOp.allocate true 1 "b"]

/-! ### Association-list lemmas -/

theorem dictGet_cons (k0 : String) (v0 : Option String) (rest : NodeTable)
    (k : String) :
    dictGet ((k0, v0) :: rest) k = if k0 = k then some v0 else dictGet rest k :=
  rfl

theorem dictSet_cons (k0 : String) (v0 : Option String) (rest : NodeTable)
    (k : String) (v : Option String) :
    dictSet ((k0, v0) :: rest) k v =
      if k0 = k then (k0, v) :: rest else (k0, v0) :: dictSet rest k v := rfl

theorem tableKeys_cons (k0 : String) (v0 : Option String) (rest : NodeTable) :
    tableKeys ((k0, v0) :: rest) = k0 :: tableKeys rest := rfl

theorem mem_tableKeys_iff (d : NodeTable) (k : String) :
    k ∈ tableKeys d ↔ ∃ v, (k, v) ∈ d := by
  constructor
  · intro h
    rcases List.mem_map.1 h with ⟨⟨a, b⟩, hab, hfst⟩
    cases hfst
    exact ⟨b, hab⟩
  · rintro ⟨v, hv⟩
    exact List.mem_map.2 ⟨(k, v), hv, rfl⟩

theorem dictGet_set_self (d : NodeTable) (k : String) (v : Option String) :
    dictGet (dictSet d k v) k = some v := by
  induction d with
  | nil => simp [dictSet, dictGet]
  | cons kv rest ih =>
    obtain ⟨k0, v0⟩ := kv
    by_cases h : k0 = k
    · rw [dictSet_cons, if_pos h, dictGet_cons, if_pos h]
    · rw [dictSet_cons, if_neg h, dictGet_cons, if_neg h, ih]

theorem dictGet_set_ne (d : NodeTable) (k m : String) (v : Option String)
    (h : m ≠ k) : dictGet (dictSet d k v) m = dictGet d m := by
  induction d with
  | nil =>
    rw [show dictSet [] k v = [(k, v)] from rfl, dictGet_cons,
      if_neg (fun hh => h hh.symm)]
  | cons kv rest ih =>
    obtain ⟨k0, v0⟩ := kv
    by_cases h0 : k0 = k
    · subst h0
      rw [dictSet_cons, if_pos rfl, dictGet_cons, dictGet_cons,
        if_neg (fun hh => h hh.symm), if_neg (fun hh => h hh.symm)]
    · rw [dictSet_cons, if_neg h0, dictGet_cons, dictGet_cons, ih]

theorem mem_tableKeys_of_dictGet (d : NodeTable) (k : String) (v : Option String)
    (h : dictGet d k = some v) : k ∈ tableKeys d := by
  induction d with
  | nil => simp [dictGet] at h
  | cons kv rest ih =>
    obtain ⟨k0, v0⟩ := kv
    rw [tableKeys_cons]
    by_cases h0 : k0 = k
    · exact h0 ▸ List.mem_cons_self _ _
    · rw [dictGet_cons, if_neg h0] at h
      exact List.mem_cons_of_mem _ (ih h)

theorem dictGet_of_mem (d : NodeTable) (k : String) (v : Option String)
    (hnd : (tableKeys d).Nodup) (hm : (k, v) ∈ d) : dictGet d k = some v := by
  induction d with
  | nil => simp at hm
  | cons kv rest ih =>
    obtain ⟨k0, v0⟩ := kv
    rw [tableKeys_cons] at hnd
    have hhead : k0 ∉ tableKeys rest := (List.nodup_cons.1 hnd).1
    have htail : (tableKeys rest).Nodup := (List.nodup_cons.1 hnd).2
    rcases List.mem_cons.1 hm with h | h
    · cases h
      rw [dictGet_cons, if_pos rfl]
    · have hne : ¬ k0 = k := by
        intro hh
        subst hh
        exact hhead ((mem_tableKeys_iff rest k0).2 ⟨v, h⟩)
      rw [dictGet_cons, if_neg hne]
      exact ih htail h

theorem tableKeys_set_of_mem (d : NodeTable) (k : String) (v : Option String)
    (h : k ∈ tableKeys d) : tableKeys (dictSet d k v) = tableKeys d := by
  induction d with
  | nil => simp [tableKeys] at h
  | cons kv rest ih =>
    obtain ⟨k0, v0⟩ := kv
    by_cases h0 : k0 = k
    · rw [dictSet_cons, if_pos h0, tableKeys_cons, tableKeys_cons]
    · rw [tableKeys_cons] at h
      rcases List.mem_cons.1 h with hh | hh
      · exact absurd hh.symm h0
      · rw [dictSet_cons, if_neg h0, tableKeys_cons, tableKeys_cons, ih hh]

theorem tableKeys_set_of_not_mem (d : NodeTable) (k : String) (v : Option String)
    (h : k ∉ tableKeys d) : tableKeys (dictSet d k v) = tableKeys d ++ [k] := by
  induction d with
  | nil => simp [dictSet, tableKeys]
  | cons kv rest ih =>
    obtain ⟨k0, v0⟩ := kv
    rw [tableKeys_cons] at h
    have h1 : ¬ k0 = k := fun hh => h (hh ▸ List.mem_cons_self _ _)
    have h2 : k ∉ tableKeys rest := fun hh => h (List.mem_cons_of_mem _ hh)
    rw [dictSet_cons, if_neg h1, tableKeys_cons, tableKeys_cons, ih h2,
      List.cons_append]

theorem nodup_tableKeys_set (d : NodeTable) (k : String) (v : Option String)
    (hnd : (tableKeys d).Nodup) : (tableKeys (dictSet d k v)).Nodup := by
  by_cases h : k ∈ tableKeys d
  · rwa [tableKeys_set_of_mem d k v h]
  · rw [tableKeys_set_of_not_mem d k v h]
    refine hnd.append (List.nodup_singleton k) ?_
    intro a ha hb
    rw [List.mem_singleton] at hb
    subst hb
    exact h ha

theorem numNonFreeT_cons (k : String) (v : Option String) (d : NodeTable) :
    numNonFreeT ((k, v) :: d) = (if v = none then 0 else 1) + numNonFreeT d := by
  by_cases h : v = none <;> simp [numNonFreeT, List.filter, h] <;> omega

theorem numNonFreeT_le_length (d : NodeTable) : numNonFreeT d ≤ d.length :=
  (List.length_filter_le _ d)

theorem numNonFreeT_set_isSome (d : NodeTable) (k : String) (w v : String)
    (h : dictGet d k = some (some w)) :
    numNonFreeT (dictSet d k (some v)) = numNonFreeT d := by
  induction d with
  | nil => simp [dictGet] at h
  | cons kv rest ih =>
    obtain ⟨k0, v0⟩ := kv
    by_cases h0 : k0 = k
    · rw [dictGet_cons, if_pos h0] at h
      have hv0 : v0 = some w := by
        cases h
        rfl
      subst hv0
      rw [dictSet_cons, if_pos h0, numNonFreeT_cons, numNonFreeT_cons]
      simp
    · rw [dictGet_cons, if_neg h0] at h
      rw [dictSet_cons, if_neg h0, numNonFreeT_cons, numNonFreeT_cons, ih h]

theorem numNonFreeT_set_none_le (d : NodeTable) (k : String) :
    numNonFreeT (dictSet d k none) ≤ numNonFreeT d := by
  induction d with
  | nil => simp [dictSet, numNonFreeT]
  | cons kv rest ih =>
    obtain ⟨k0, v0⟩ := kv
    by_cases h0 : k0 = k
    · rw [dictSet_cons, if_pos h0, numNonFreeT_cons, numNonFreeT_cons]
      have h1 : (if (none : Option String) = none then 0 else 1) = 0 := by simp
      rw [h1]
      exact Nat.add_le_add_right (Nat.zero_le _) _
    · rw [dictSet_cons, if_neg h0, numNonFreeT_cons, numNonFreeT_cons]
      exact Nat.add_le_add_left ih _

/-! ### `setAll` lemmas -/

theorem setAll_nil (d : NodeTable) (v : Option String) : setAll d [] v = d := rfl

theorem setAll_cons (d : NodeTable) (k : String) (ks : List String)
    (v : Option String) : setAll d (k :: ks) v = setAll (dictSet d k v) ks v := rfl

theorem dictGet_setAll_not_mem (d : NodeTable) (ks : List String)
    (v : Option String) (n : String) (h : n ∉ ks) :
    dictGet (setAll d ks v) n = dictGet d n := by
  induction ks generalizing d with
  | nil => rfl
  | cons k ks ih =>
    simp at h
    rw [setAll_cons, ih _ h.2, dictGet_set_ne _ _ _ _ h.1]

theorem dictGet_setAll_mem (d : NodeTable) (ks : List String)
    (v : Option String) (n : String) (h : n ∈ ks) :
    dictGet (setAll d ks v) n = some v := by
  induction ks generalizing d with
  | nil => simp at h
  | cons k ks ih =>
    rw [setAll_cons]
    by_cases hn : n ∈ ks
    · exact ih _ hn
    · rcases List.mem_cons.1 h with hh | hh
      · subst hh
        rw [dictGet_setAll_not_mem _ _ _ _ hn, dictGet_set_self]
      · exact absurd hh hn

theorem tableKeys_setAll_of_sub (d : NodeTable) (ks : List String)
    (v : Option String) (h : ∀ k ∈ ks, k ∈ tableKeys d) :
    tableKeys (setAll d ks v) = tableKeys d := by
  induction ks generalizing d with
  | nil => rfl
  | cons k ks ih =>
    rw [setAll_cons]
    have hkeys : tableKeys (dictSet d k v) = tableKeys d :=
      tableKeys_set_of_mem d k v (h k (by simp))
    rw [ih _ (fun m hm => hkeys ▸ h m (by simp [hm])), hkeys]

theorem nodup_tableKeys_setAll (d : NodeTable) (ks : List String)
    (v : Option String) (hnd : (tableKeys d).Nodup) :
    (tableKeys (setAll d ks v)).Nodup := by
  induction ks generalizing d with
  | nil => exact hnd
  | cons k ks ih => exact ih _ (nodup_tableKeys_set d k v hnd)

theorem numNonFreeT_setAll_some (d : NodeTable) (ks : List String) (v : String)
    (h : ∀ k ∈ ks, ∃ w, dictGet d k = some (some w)) :
    numNonFreeT (setAll d ks (some v)) = numNonFreeT d := by
  induction ks generalizing d with
  | nil => rfl
  | cons k ks ih =>
    rw [setAll_cons]
    obtain ⟨w, hw⟩ := h k (by simp)
    rw [ih (dictSet d k (some v)) ?_, numNonFreeT_set_isSome d k w v hw]
    intro m hm
    by_cases hmk : m = k
    · subst hmk
      exact ⟨v, dictGet_set_self d m (some v)⟩
    · rw [dictGet_set_ne d k m (some v) hmk]
      exact h m (by simp [hm])

theorem numNonFreeT_setAll_none_le (d : NodeTable) (ks : List String) :
    numNonFreeT (setAll d ks none) ≤ numNonFreeT d := by
  induction ks generalizing d with
  | nil => exact Nat.le_refl _
  | cons k ks ih =>
    exact (ih (dictSet d k none)).trans (numNonFreeT_set_none_le d k)

/-! ### Lemmas about the filtered key lists and `pySlice` -/

theorem mem_filter_map_fst (d : NodeTable) (p : String × Option String → Bool)
    (n : String) (h : n ∈ (d.filter p).map Prod.fst) :
    ∃ v, (n, v) ∈ d ∧ p (n, v) = true := by
  rcases List.mem_map.1 h with ⟨⟨k, v⟩, hkv, hfst⟩
  rcases List.mem_filter.1 hkv with ⟨hmem, hp⟩
  cases hfst
  exact ⟨v, hmem, hp⟩

theorem filter_map_fst_sub_keys (d : NodeTable) (p : String × Option String → Bool) :
    ∀ n ∈ (d.filter p).map Prod.fst, n ∈ tableKeys d := fun n h =>
  ((List.filter_sublist d).map Prod.fst).subset h

theorem nodup_filter_map_fst (d : NodeTable) (p : String × Option String → Bool)
    (hnd : (tableKeys d).Nodup) : ((d.filter p).map Prod.fst).Nodup :=
  List.Nodup.sublist ((List.filter_sublist d).map Prod.fst) hnd

theorem pySlice_sublist (xs : List α) (n : Int) : (pySlice xs n).Sublist xs := by
  unfold pySlice
  split <;> exact List.take_sublist _ _

theorem mem_pySlice (xs : List α) (n : Int) (x : α) (h : x ∈ pySlice xs n) :
    x ∈ xs := (pySlice_sublist xs n).subset h

theorem pySlice_nonneg (xs : List α) (n : Int) (h : 0 ≤ n) :
    pySlice xs n = xs.take n.toNat := by simp [pySlice, h]

theorem pySlice_neg (xs : List α) (n : Int) (h : n < 0) :
    pySlice xs n = xs.take (xs.length - (-n).toNat) := by
  simp [pySlice, Int.not_le.2 h]

/-! ### Handler inversion lemmas -/

theorem allocate_ok_inv (actOk : Bool)
    (input : ClusterManagerAllocateNNodesToJobInput) (s s1 : ClusterManagerState)
    (r : List String)
    (h : allocate_n_nodes_to_job actOk input s = Except.ok (s1, r)) :
    actOk = true ∧ s.cluster_shutdown = false ∧
    ¬ ((unassignedOf s).length : Int) < input.num_nodes ∧
    r = pySlice (unassignedOf s) input.num_nodes ∧
    s1.cluster_started = s.cluster_started ∧
    s1.cluster_shutdown = s.cluster_shutdown ∧
    nodesOf s1 = setAll (nodesOf s) r (some input.task_name) ∧
    s1.max_assigned_nodes = max s.max_assigned_nodes (numNonFree s1 : Int) := by
  by_cases hsd : s.cluster_shutdown = true
  · simp [allocate_n_nodes_to_job, hsd] at h
  · by_cases hcap : ((unassignedOf s).length : Int) < input.num_nodes
    · simp [allocate_n_nodes_to_job, hsd, hcap] at h
    · by_cases hok : actOk = true
      · simp [allocate_n_nodes_to_job, hsd, hcap, hok] at h
        obtain ⟨h1, h2⟩ := h
        have hsd' : s.cluster_shutdown = false := by simpa using hsd
        subst h2
        subst h1
        exact ⟨hok, hsd', hcap, rfl, rfl, hsd'.symm, rfl, rfl⟩
      · simp [allocate_n_nodes_to_job, hsd, hcap, hok] at h

theorem delete_ok_inv (actOk : Bool) (input : ClusterManagerDeleteJobInput)
    (s s1 : ClusterManagerState)
    (h : delete_job actOk input s = Except.ok s1) :
    actOk = true ∧ s.cluster_shutdown = false ∧
    s1.cluster_started = s.cluster_started ∧
    s1.cluster_shutdown = s.cluster_shutdown ∧
    s1.max_assigned_nodes = s.max_assigned_nodes ∧
    nodesOf s1 = setAll (nodesOf s) (jobNodesOf s input.task_name) none := by
  by_cases hsd : s.cluster_shutdown = true
  · simp [delete_job, hsd] at h
  · by_cases hok : actOk = true
    · simp [delete_job, hsd, hok] at h
      have hsd' : s.cluster_shutdown = false := by simpa using hsd
      subst h
      exact ⟨hok, hsd', rfl, hsd'.symm, rfl, rfl⟩
    · simp [delete_job, hsd, hok] at h

theorem perform_health_checks_ok (bad_nodes : List String)
    (s : ClusterManagerState) :
    perform_health_checks (some bad_nodes) s =
      Except.ok
        { s with nodes := some (setAll (nodesOf s) bad_nodes (some "BAD!")) } :=
  rfl

/-! ### Membership facts about the filtered key lists -/

theorem dictGet_of_mem_unassigned (s : ClusterManagerState) (n : String)
    (hnd : (tableKeys (nodesOf s)).Nodup) (h : n ∈ unassignedOf s) :
    dictGet (nodesOf s) n = some none := by
  rcases mem_filter_map_fst _ _ _ h with ⟨v, hv, hp⟩
  have hv0 : v = none := of_decide_eq_true hp
  subst hv0
  exact dictGet_of_mem _ _ _ hnd hv

theorem dictGet_of_mem_jobNodes (s : ClusterManagerState) (t n : String)
    (hnd : (tableKeys (nodesOf s)).Nodup) (h : n ∈ jobNodesOf s t) :
    dictGet (nodesOf s) n = some (some t) := by
  rcases mem_filter_map_fst _ _ _ h with ⟨v, hv, hp⟩
  have hv0 : v = some t := of_decide_eq_true hp
  subst hv0
  exact dictGet_of_mem _ _ _ hnd hv

theorem dictGet_of_mem_assigned (s : ClusterManagerState) (n : String)
    (hnd : (tableKeys (nodesOf s)).Nodup) (h : n ∈ get_assigned_nodes s) :
    ∃ j, dictGet (nodesOf s) n = some (some j) ∧ j ≠ "BAD!" := by
  rcases mem_filter_map_fst _ _ _ h with ⟨v, hv, hp⟩
  obtain ⟨hne, hbad⟩ := of_decide_eq_true hp
  rcases v with _ | j
  · exact absurd rfl hne
  · exact ⟨j, dictGet_of_mem _ _ _ hnd hv, fun hh => hbad (by rw [hh])⟩

/-! ### Step invariants of `applyOp` -/

theorem tableKeys_allocate_ok (actOk : Bool)
    (input : ClusterManagerAllocateNNodesToJobInput) (s s1 : ClusterManagerState)
    (r : List String)
    (h : allocate_n_nodes_to_job actOk input s = Except.ok (s1, r)) :
    tableKeys (nodesOf s1) = tableKeys (nodesOf s) := by
  obtain ⟨-, -, -, hr, -, -, hnodes, -⟩ := allocate_ok_inv actOk input s s1 r h
  rw [hnodes]
  apply tableKeys_setAll_of_sub
  intro k hk
  rw [hr] at hk
  exact filter_map_fst_sub_keys _ _ k (mem_pySlice _ _ _ hk)

theorem tableKeys_delete_ok (actOk : Bool) (input : ClusterManagerDeleteJobInput)
    (s s1 : ClusterManagerState) (h : delete_job actOk input s = Except.ok s1) :
    tableKeys (nodesOf s1) = tableKeys (nodesOf s) := by
  obtain ⟨-, -, -, -, -, hnodes⟩ := delete_ok_inv actOk input s s1 h
  rw [hnodes]
  exact tableKeys_setAll_of_sub _ _ _ (fun k hk => filter_map_fst_sub_keys _ _ k hk)

theorem nodup_tableKeys_applyOp (s : ClusterManagerState) (op : ClusterOp)
    (hnd : (tableKeys (nodesOf s)).Nodup) :
    (tableKeys (nodesOf (applyOp s op))).Nodup := by
  cases op with
  | startCluster =>
    exact (by decide :
      (tableKeys (nodesOf (start_cluster initialState))).Nodup)
  | shutdownCluster =>
    by_cases hst : s.cluster_started = true <;>
      simp only [applyOp, hst, if_true, if_false, Bool.false_eq_true] <;>
      exact hnd
  | allocate actOk num_nodes task_name =>
    by_cases hst : s.cluster_started = true
    · cases hE : allocate_n_nodes_to_job actOk ⟨num_nodes, task_name⟩ s with
      | ok pair =>
        obtain ⟨s1, r⟩ := pair
        have hk := tableKeys_allocate_ok actOk ⟨num_nodes, task_name⟩ s s1 r hE
        simp only [applyOp, hst, if_true, hE]
        rw [hk]
        exact hnd
      | error e =>
        simp only [applyOp, hst, if_true, hE]
        exact hnd
    · simp only [applyOp, hst, if_false, Bool.false_eq_true]
      exact hnd
  | deleteJob actOk task_name =>
    by_cases hst : s.cluster_started = true
    · cases hE : delete_job actOk ⟨task_name⟩ s with
      | ok s1 =>
        have hk := tableKeys_delete_ok actOk ⟨task_name⟩ s s1 hE
        simp only [applyOp, hst, if_true, hE]
        rw [hk]
        exact hnd
      | error e =>
        simp only [applyOp, hst, if_true, hE]
        exact hnd
    · simp only [applyOp, hst, if_false, Bool.false_eq_true]
      exact hnd
  | healthCheck actResult =>
    by_cases hst : s.cluster_started = true
    · cases actResult with
      | none =>
        simp only [applyOp, hst, if_true, perform_health_checks]
        exact hnd
      | some bad_nodes =>
        simp only [applyOp, hst, if_true, perform_health_checks]
        exact nodup_tableKeys_setAll _ _ _ hnd
    · simp only [applyOp, hst, if_false, Bool.false_eq_true]
      exact hnd

theorem max_mono_applyOp (s : ClusterManagerState) (op : ClusterOp) :
    s.max_assigned_nodes ≤ (applyOp s op).max_assigned_nodes := by
  cases op with
  | startCluster => exact le_refl _
  | shutdownCluster =>
    by_cases hst : s.cluster_started = true <;>
      simp only [applyOp, hst, if_true, if_false, Bool.false_eq_true] <;>
      exact le_refl _
  | allocate actOk num_nodes task_name =>
    by_cases hst : s.cluster_started = true
    · cases hE : allocate_n_nodes_to_job actOk ⟨num_nodes, task_name⟩ s with
      | ok pair =>
        obtain ⟨s1, r⟩ := pair
        obtain ⟨-, -, -, -, -, -, -, hmax⟩ :=
          allocate_ok_inv actOk ⟨num_nodes, task_name⟩ s s1 r hE
        simp only [applyOp, hst, if_true, hE]
        rw [hmax]
        exact le_max_left _ _
      | error e =>
        simp only [applyOp, hst, if_true, hE]
        exact le_refl _
    · simp only [applyOp, hst, if_false, Bool.false_eq_true]
      exact le_refl _
  | deleteJob actOk task_name =>
    by_cases hst : s.cluster_started = true
    · cases hE : delete_job actOk ⟨task_name⟩ s with
      | ok s1 =>
        obtain ⟨-, -, -, -, hmax, -⟩ := delete_ok_inv actOk ⟨task_name⟩ s s1 hE
        simp only [applyOp, hst, if_true, hE]
        rw [hmax]
      | error e =>
        simp only [applyOp, hst, if_true, hE]
        exact le_refl _
    · simp only [applyOp, hst, if_false, Bool.false_eq_true]
      exact le_refl _
  | healthCheck actResult =>
    by_cases hst : s.cluster_started = true
    · cases actResult with
      | none =>
        simp only [applyOp, hst, if_true, perform_health_checks]
        exact le_refl _
      | some bad_nodes =>
        simp only [applyOp, hst, if_true, perform_health_checks]
        exact le_refl _
    · simp only [applyOp, hst, if_false, Bool.false_eq_true]
      exact le_refl _

theorem numNonFree_le_histPeak (s : ClusterManagerState) (ops : List ClusterOp) :
    numNonFree s ≤ histPeak s ops := by
  cases ops with
  | nil => exact le_refl _
  | cons op rest => exact le_max_left _ _

/-- Effect of one valid step on `max_assigned_nodes` and the non-free count:
either the step was a successful allocation (which recomputes the peak), or
it left the peak alone and did not increase the non-free count. -/
theorem step_max_inv (s : ClusterManagerState) (op : ClusterOp)
    (hv : validOp s op = true) (hnd : (tableKeys (nodesOf s)).Nodup) :
    (applyOp s op).max_assigned_nodes
        = max s.max_assigned_nodes (numNonFree (applyOp s op) : Int)
    ∨ ((applyOp s op).max_assigned_nodes = s.max_assigned_nodes
        ∧ numNonFree (applyOp s op) ≤ numNonFree s) := by
  cases op with
  | startCluster =>
    refine Or.inr ⟨by trivial, ?_⟩
    have h0 : numNonFree (applyOp s ClusterOp.startCluster) = 0 := rfl
    rw [h0]
    exact Nat.zero_le _
  | shutdownCluster =>
    by_cases hst : s.cluster_started = true <;>
      simp only [applyOp, hst, if_true, if_false, Bool.false_eq_true] <;>
      exact Or.inr ⟨by trivial, le_refl _⟩
  | allocate actOk num_nodes task_name =>
    by_cases hst : s.cluster_started = true
    · cases hE : allocate_n_nodes_to_job actOk ⟨num_nodes, task_name⟩ s with
      | ok pair =>
        obtain ⟨s1, r⟩ := pair
        obtain ⟨-, -, -, -, -, -, -, hmax⟩ :=
          allocate_ok_inv actOk ⟨num_nodes, task_name⟩ s s1 r hE
        simp only [applyOp, hst, if_true, hE]
        exact Or.inl hmax
      | error e =>
        simp only [applyOp, hst, if_true, hE]
        exact Or.inr ⟨by trivial, le_refl _⟩
    · simp only [applyOp, hst, if_false, Bool.false_eq_true]
      exact Or.inr ⟨by trivial, le_refl _⟩
  | deleteJob actOk task_name =>
    by_cases hst : s.cluster_started = true
    · cases hE : delete_job actOk ⟨task_name⟩ s with
      | ok s1 =>
        obtain ⟨-, -, -, -, hmax, hnodes⟩ := delete_ok_inv actOk ⟨task_name⟩ s s1 hE
        simp only [applyOp, hst, if_true, hE]
        refine Or.inr ⟨hmax, ?_⟩
        have : numNonFree s1 = numNonFreeT (setAll (nodesOf s)
            (jobNodesOf s task_name) none) := by
          rw [numNonFree, hnodes]
        rw [this]
        exact numNonFreeT_setAll_none_le _ _
      | error e =>
        simp only [applyOp, hst, if_true, hE]
        exact Or.inr ⟨by trivial, le_refl _⟩
    · simp only [applyOp, hst, if_false, Bool.false_eq_true]
      exact Or.inr ⟨by trivial, le_refl _⟩
  | healthCheck actResult =>
    by_cases hst : s.cluster_started = true
    · cases actResult with
      | none =>
        simp only [applyOp, hst, if_true, perform_health_checks]
        exact Or.inr ⟨by trivial, le_refl _⟩
      | some bad_nodes =>
        have hsub : ∀ k ∈ bad_nodes, ∃ w, dictGet (nodesOf s) k = some (some w) := by
          intro k hk
          have hmem : k ∈ get_assigned_nodes s := by
            have := List.all_eq_true.1 hv k hk
            exact of_decide_eq_true this
          obtain ⟨j, hj, -⟩ := dictGet_of_mem_assigned s k hnd hmem
          exact ⟨j, hj⟩
        simp only [applyOp, hst, if_true, perform_health_checks]
        refine Or.inr ⟨by trivial, ?_⟩
        show numNonFreeT (setAll (nodesOf s) bad_nodes (some "BAD!")) ≤ numNonFree s
        rw [numNonFreeT_setAll_some (nodesOf s) bad_nodes "BAD!" hsub]
        exact le_refl _
    · simp only [applyOp, hst, if_false, Bool.false_eq_true]
      exact Or.inr ⟨by trivial, le_refl _⟩

/-- Along any environment-faithful trace, `max_assigned_nodes` is the
running maximum of its starting value and the non-free counts of all states
of the trace, provided the non-free count of the starting state does not
already exceed the starting value. -/
theorem max_eq_histPeak_aux (ops : List ClusterOp) : ∀ (s : ClusterManagerState),
    validOps s ops = true → (tableKeys (nodesOf s)).Nodup →
    (numNonFree s : Int) ≤ s.max_assigned_nodes →
    (runOps s ops).max_assigned_nodes
      = max s.max_assigned_nodes (histPeak s ops : Int) := by
  have key : ∀ a c c1 H : Int, c ≤ a → c1 ≤ H →
      max (max a c1) H = max a (max c H) := by
    intro a c c1 H h1 h2
    rw [max_assoc, max_eq_right h2, ← max_assoc, max_eq_left h1]
  have key2 : ∀ a c H : Int, c ≤ a → max a H = max a (max c H) := by
    intro a c H h1
    rw [← max_assoc, max_eq_left h1]
  induction ops with
  | nil =>
    intro s _ _ hle
    have h1 : runOps s [] = s := rfl
    have h2 : histPeak s [] = numNonFree s := rfl
    rw [h1, h2, max_eq_left hle]
  | cons op rest ih =>
    intro s hv hnd hle
    have hv1 : validOp s op = true ∧ validOps (applyOp s op) rest = true := by
      simpa [validOps, Bool.and_eq_true] using hv
    have hnd1 := nodup_tableKeys_applyOp s op hnd
    have hrun : runOps s (op :: rest) = runOps (applyOp s op) rest := rfl
    have hhist : (histPeak s (op :: rest) : Int)
        = max (numNonFree s : Int) (histPeak (applyOp s op) rest : Int) := by
      have : histPeak s (op :: rest)
          = max (numNonFree s) (histPeak (applyOp s op) rest) := rfl
      rw [this, Nat.cast_max]
    have hc1H : (numNonFree (applyOp s op) : Int)
        ≤ (histPeak (applyOp s op) rest : Int) :=
      Int.ofNat_le.2 (numNonFree_le_histPeak (applyOp s op) rest)
    rcases step_max_inv s op hv1.1 hnd with hstep | hstep
    · have hle1 : (numNonFree (applyOp s op) : Int)
          ≤ (applyOp s op).max_assigned_nodes := by
        rw [hstep]
        exact le_max_right _ _
      have hih := ih (applyOp s op) hv1.2 hnd1 hle1
      rw [hrun, hih, hstep, hhist]
      exact key s.max_assigned_nodes _ _ _ hle hc1H
    · have hle1 : (numNonFree (applyOp s op) : Int)
          ≤ (applyOp s op).max_assigned_nodes := by
        rw [hstep.1]
        exact le_trans (Int.ofNat_le.2 hstep.2) hle
      have hih := ih (applyOp s op) hv1.2 hnd1 hle1
      rw [hrun, hih, hstep.1, hhist]
      exact key2 s.max_assigned_nodes _ _ hle

/-- No single operation other than a table-resetting `start_cluster` or a
`delete_job` named after the sentinel moves a node out of the unhealthy
value. -/
theorem unhealthy_preserved_step (s : ClusterManagerState) (op : ClusterOp)
    (n : String) (hnd : (tableKeys (nodesOf s)).Nodup)
    (hallow : opKeepsUnhealthy op = true)
    (hbad : dictGet (nodesOf s) n = some (some "BAD!")) :
    dictGet (nodesOf (applyOp s op)) n = some (some "BAD!") := by
  cases op with
  | startCluster => simp [opKeepsUnhealthy] at hallow
  | shutdownCluster =>
    by_cases hst : s.cluster_started = true <;>
      simp only [applyOp, hst, if_true, if_false, Bool.false_eq_true] <;>
      exact hbad
  | allocate actOk num_nodes task_name =>
    by_cases hst : s.cluster_started = true
    · cases hE : allocate_n_nodes_to_job actOk ⟨num_nodes, task_name⟩ s with
      | ok pair =>
        obtain ⟨s1, r⟩ := pair
        obtain ⟨-, -, -, hr, -, -, hnodes, -⟩ :=
          allocate_ok_inv actOk ⟨num_nodes, task_name⟩ s s1 r hE
        have hnotmem : n ∉ r := by
          intro hmem
          rw [hr] at hmem
          have hfree := dictGet_of_mem_unassigned s n hnd (mem_pySlice _ _ _ hmem)
          rw [hbad] at hfree
          simp at hfree
        simp only [applyOp, hst, if_true, hE]
        rw [hnodes, dictGet_setAll_not_mem _ _ _ _ hnotmem]
        exact hbad
      | error e =>
        simp only [applyOp, hst, if_true, hE]
        exact hbad
    · simp only [applyOp, hst, if_false, Bool.false_eq_true]
      exact hbad
  | deleteJob actOk task_name =>
    have hne : task_name ≠ "BAD!" :=
      of_decide_eq_true (by simpa [opKeepsUnhealthy] using hallow)
    by_cases hst : s.cluster_started = true
    · cases hE : delete_job actOk ⟨task_name⟩ s with
      | ok s1 =>
        obtain ⟨-, -, -, -, -, hnodes⟩ := delete_ok_inv actOk ⟨task_name⟩ s s1 hE
        have hnotmem : n ∉ jobNodesOf s task_name := by
          intro hmem
          have hjob := dictGet_of_mem_jobNodes s task_name n hnd hmem
          rw [hbad] at hjob
          have heq : "BAD!" = task_name := by
            injection hjob with h1
            injection h1 with h2
          exact hne heq.symm
        simp only [applyOp, hst, if_true, hE]
        rw [hnodes, dictGet_setAll_not_mem _ _ _ _ hnotmem]
        exact hbad
      | error e =>
        simp only [applyOp, hst, if_true, hE]
        exact hbad
    · simp only [applyOp, hst, if_false, Bool.false_eq_true]
      exact hbad
  | healthCheck actResult =>
    by_cases hst : s.cluster_started = true
    · cases actResult with
      | none =>
        simp only [applyOp, hst, if_true, perform_health_checks]
        exact hbad
      | some bad_nodes =>
        simp only [applyOp, hst, if_true, perform_health_checks]
        show dictGet (setAll (nodesOf s) bad_nodes (some "BAD!")) n
            = some (some "BAD!")
        by_cases hmem : n ∈ bad_nodes
        · rw [dictGet_setAll_mem _ _ _ _ hmem]
        · rw [dictGet_setAll_not_mem _ _ _ _ hmem]
          exact hbad
    · simp only [applyOp, hst, if_false, Bool.false_eq_true]
      exact hbad

/-- Nodes handed out by a successful allocation were free beforehand. -/
theorem free_of_mem_allocStepResults (s : ClusterManagerState) (op : ClusterOp)
    (n : String) (hnd : (tableKeys (nodesOf s)).Nodup)
    (h : n ∈ allocStepResults s op) : dictGet (nodesOf s) n = some none := by
  cases op with
  | allocate actOk num_nodes task_name =>
    by_cases hst : s.cluster_started = true
    · cases hE : allocate_n_nodes_to_job actOk ⟨num_nodes, task_name⟩ s with
      | ok pair =>
        obtain ⟨s1, r⟩ := pair
        obtain ⟨-, -, -, hr, -, -, -, -⟩ :=
          allocate_ok_inv actOk ⟨num_nodes, task_name⟩ s s1 r hE
        simp only [allocStepResults, hst, if_true, hE] at h
        rw [hr] at h
        exact dictGet_of_mem_unassigned s n hnd (mem_pySlice _ _ _ h)
      | error e =>
        simp only [allocStepResults, hst, if_true, hE] at h
        exact absurd h (List.not_mem_nil n)
    · simp only [allocStepResults, hst, if_false, Bool.false_eq_true] at h
      exact absurd h (List.not_mem_nil n)
  | startCluster => exact absurd h (List.not_mem_nil n)
  | shutdownCluster => exact absurd h (List.not_mem_nil n)
  | deleteJob actOk task_name => exact absurd h (List.not_mem_nil n)
  | healthCheck actResult => exact absurd h (List.not_mem_nil n)

/-- Allocate/delete handler executions never add or remove table keys. -/
theorem tableKeys_applyOp_allocdel (s : ClusterManagerState) (op : ClusterOp)
    (hop : opAllocDel op = true) :
    tableKeys (nodesOf (applyOp s op)) = tableKeys (nodesOf s) := by
  cases op with
  | startCluster => simp [opAllocDel] at hop
  | shutdownCluster => simp [opAllocDel] at hop
  | healthCheck actResult => simp [opAllocDel] at hop
  | allocate actOk num_nodes task_name =>
    by_cases hst : s.cluster_started = true
    · cases hE : allocate_n_nodes_to_job actOk ⟨num_nodes, task_name⟩ s with
      | ok pair =>
        obtain ⟨s1, r⟩ := pair
        simp only [applyOp, hst, if_true, hE]
        exact tableKeys_allocate_ok actOk ⟨num_nodes, task_name⟩ s s1 r hE
      | error e =>
        simp only [applyOp, hst, if_true, hE]
    · simp only [applyOp, hst, if_false, Bool.false_eq_true]
  | deleteJob actOk task_name =>
    by_cases hst : s.cluster_started = true
    · cases hE : delete_job actOk ⟨task_name⟩ s with
      | ok s1 =>
        simp only [applyOp, hst, if_true, hE]
        exact tableKeys_delete_ok actOk ⟨task_name⟩ s s1 hE
      | error e =>
        simp only [applyOp, hst, if_true, hE]
    · simp only [applyOp, hst, if_false, Bool.false_eq_true]

theorem tableKeys_runOps_allocdel (ops : List ClusterOp) :
    ∀ s : ClusterManagerState, ops.all opAllocDel = true →
    tableKeys (nodesOf (runOps s ops)) = tableKeys (nodesOf s) := by
  induction ops with
  | nil => intro s _; rfl
  | cons op rest ih =>
    intro s hops
    have h1 : opAllocDel op = true ∧ rest.all opAllocDel = true := by simpa using hops
    have hrun : runOps s (op :: rest) = runOps (applyOp s op) rest := rfl
    rw [hrun, ih (applyOp s op) h1.2, tableKeys_applyOp_allocdel s op h1.1]

/-! ### Claim theorems -/

/-- **C1** (counterexample).  The claim says `max_assigned_nodes` equals the
historical maximum of the number of simultaneously assigned *non-unhealthy*
nodes.  On the trace that allocates node `"0"`, has the health check mark it
`"BAD!"`, and then allocates node `"1"`, the code's recomputation at line 107
counts every node whose value `is not None` — including the unhealthy
sentinel — so `max_assigned_nodes` ends at `2` although never more than one
non-unhealthy node was simultaneously assigned. -/
theorem peak_counts_unhealthy_counterexample :
    validOps freshStarted peakOps = true
    ∧ (runOps freshStarted peakOps).max_assigned_nodes = 2
    ∧ histPeakAssigned freshStarted peakOps = 1 := by decide

/-- **C1** (amended).  After any environment-faithful sequence of operations
on a freshly started cluster, `max_assigned_nodes` equals the historical
maximum of the number of simultaneously *non-free* nodes — counting both
job-assigned nodes and nodes carrying the unhealthy sentinel, as line 107 of
the source does — and `max_assigned_nodes` is monotonically non-decreasing
across every operation. -/
theorem peak_is_running_max_of_nonfree (ops : List ClusterOp)
    (hv : validOps freshStarted ops = true) :
    (runOps freshStarted ops).max_assigned_nodes
        = (histPeak freshStarted ops : Int)
    ∧ ∀ (s : ClusterManagerState) (op : ClusterOp),
        s.max_assigned_nodes ≤ (applyOp s op).max_assigned_nodes := by
  constructor
  · have hnd : (tableKeys (nodesOf freshStarted)).Nodup := by decide
    have hle : (numNonFree freshStarted : Int)
        ≤ freshStarted.max_assigned_nodes := by decide
    have haux := max_eq_histPeak_aux ops freshStarted hv hnd hle
    rw [haux]
    have hmax0 : freshStarted.max_assigned_nodes = 0 := rfl
    rw [hmax0]
    exact max_eq_right (Int.natCast_nonneg _)
  · exact max_mono_applyOp

/-- Witness for the amended C1 theorem at the concrete trace `peakOps`. -/
theorem peak_is_running_max_of_nonfree_witness :
    validOps freshStarted peakOps = true
    ∧ ((runOps freshStarted peakOps).max_assigned_nodes
          = (histPeak freshStarted peakOps : Int)
        ∧ ∀ (s : ClusterManagerState) (op : ClusterOp),
            s.max_assigned_nodes ≤ (applyOp s op).max_assigned_nodes) :=
  ⟨by decide, peak_is_running_max_of_nonfree peakOps (by decide)⟩

/-- **C3** (counterexample).  Node `"0"` is marked unhealthy by the trace
`unhealthyOps`, yet a *subsequent* `start_cluster` signal (one of the
operations the claim quantifies over) reinitialises the whole table and
returns it to the free state — so "once unhealthy, never returned to free
under every subsequent sequence of operations" fails on the code.  (A
`delete_job` with task name `"BAD!"` would equally free it.) -/
theorem unhealthy_freed_counterexample :
    validOps freshStarted (unhealthyOps ++ [ClusterOp.startCluster]) = true
    ∧ dictGet (nodesOf (runOps freshStarted unhealthyOps)) "0"
        = some (some "BAD!")
    ∧ dictGet
        (nodesOf (runOps freshStarted (unhealthyOps ++ [ClusterOp.startCluster])))
        "0" = some none := by decide

/-- **C3** (amended).  Once a node carries the unhealthy sentinel, then under
every subsequent sequence of operations *that contains no further
`start_cluster` signal and no `delete_job` for the sentinel name itself*
(the two code paths that do move nodes out of `unhealthy`), the node keeps
the sentinel, is excluded from the assigned-node count, and is never handed
out by a later allocation. -/
theorem unhealthy_terminal_amended (s : ClusterManagerState)
    (ops : List ClusterOp) (n : String)
    (hnd : (tableKeys (nodesOf s)).Nodup)
    (hallow : ops.all opKeepsUnhealthy = true)
    (hbad : dictGet (nodesOf s) n = some (some "BAD!")) :
    dictGet (nodesOf (runOps s ops)) n = some (some "BAD!")
    ∧ n ∉ get_assigned_nodes (runOps s ops)
    ∧ n ∉ allocResults s ops := by
  induction ops generalizing s with
  | nil =>
    refine ⟨hbad, ?_, by simp [allocResults]⟩
    intro hmem
    obtain ⟨j, hj, hjne⟩ := dictGet_of_mem_assigned s n hnd hmem
    rw [hbad] at hj
    have heq : "BAD!" = j := by
      injection hj with h1
      injection h1 with h2
    exact hjne heq.symm
  | cons op rest ih =>
    have hallow1 : opKeepsUnhealthy op = true
        ∧ rest.all opKeepsUnhealthy = true := by simpa using hallow
    have hbad1 := unhealthy_preserved_step s op n hnd hallow1.1 hbad
    have hnd1 := nodup_tableKeys_applyOp s op hnd
    obtain ⟨g1, g2, g3⟩ := ih (applyOp s op) hnd1 hallow1.2 hbad1
    refine ⟨g1, g2, ?_⟩
    intro hmem
    have hsplit : allocResults s (op :: rest)
        = allocStepResults s op ++ allocResults (applyOp s op) rest := rfl
    rw [hsplit] at hmem
    rcases List.mem_append.1 hmem with hmem | hmem
    · have hfree := free_of_mem_allocStepResults s op n hnd hmem
      rw [hbad] at hfree
      simp at hfree
    · exact g3 hmem

/-- Witness for the amended C3 theorem: node `"0"` stays unhealthy across a
delete of its old job followed by a fresh allocation. -/
theorem unhealthy_terminal_amended_witness :
    ((tableKeys (nodesOf (runOps freshStarted unhealthyOps))).Nodup
      ∧ sampleAllocDelOps.all opKeepsUnhealthy = true
      ∧ dictGet (nodesOf (runOps freshStarted unhealthyOps)) "0"
          = some (some "BAD!"))
    ∧ (dictGet
          (nodesOf (runOps (runOps freshStarted unhealthyOps) sampleAllocDelOps))
          "0" = some (some "BAD!")
        ∧ "0" ∉ get_assigned_nodes
            (runOps (runOps freshStarted unhealthyOps) sampleAllocDelOps)
        ∧ "0" ∉ allocResults (runOps freshStarted unhealthyOps) sampleAllocDelOps) :=
  ⟨⟨by decide, by decide, by decide⟩,
    unhealthy_terminal_amended (runOps freshStarted unhealthyOps)
      sampleAllocDelOps "0" (by decide) (by decide) (by decide)⟩

/-- **C4**.  For every sequence of allocate/delete operations on a freshly
started cluster (shutdown not yet signalled), the number of non-free nodes
— in particular the number of nodes marked assigned — never exceeds the
pool size 25; every node identity occurs exactly once in the table (so a
node carries at most one job); and every successful allocation hands out
pairwise-distinct nodes that were all free immediately beforehand (no node
is ever given to a second job while assigned). -/
theorem pool_bound_and_exclusive (ops : List ClusterOp)
    (hops : ops.all opAllocDel = true) :
    numNonFree (runOps freshStarted ops) ≤ 25
    ∧ (get_assigned_nodes (runOps freshStarted ops)).length ≤ 25
    ∧ (tableKeys (nodesOf (runOps freshStarted ops))).Nodup
    ∧ ∀ (actOk : Bool) (num_nodes : Int) (task_name : String)
        (s1 : ClusterManagerState) (r : List String),
        allocate_n_nodes_to_job actOk ⟨num_nodes, task_name⟩
            (runOps freshStarted ops) = Except.ok (s1, r) →
        r.Nodup
        ∧ ∀ m ∈ r, dictGet (nodesOf (runOps freshStarted ops)) m = some none := by
  have hkeys := tableKeys_runOps_allocdel ops freshStarted hops
  have hnd : (tableKeys (nodesOf (runOps freshStarted ops))).Nodup := by
    rw [hkeys]
    decide
  have hlen : (nodesOf (runOps freshStarted ops)).length = 25 := by
    have h1 : (tableKeys (nodesOf (runOps freshStarted ops))).length
        = (nodesOf (runOps freshStarted ops)).length := List.length_map _ _
    have h2 : (tableKeys (nodesOf freshStarted)).length = 25 := by decide
    rw [hkeys, h2] at h1
    exact h1.symm
  refine ⟨?_, ?_, hnd, ?_⟩
  · have hb := numNonFreeT_le_length (nodesOf (runOps freshStarted ops))
    rw [hlen] at hb
    exact hb
  · rw [get_assigned_nodes, List.length_map]
    exact le_trans (List.length_filter_le _ _) (le_of_eq hlen)
  · intro actOk num_nodes task_name s1 r hE
    obtain ⟨-, -, -, hr, -, -, -, -⟩ :=
      allocate_ok_inv actOk ⟨num_nodes, task_name⟩ _ s1 r hE
    constructor
    · rw [hr]
      exact List.Nodup.sublist (pySlice_sublist _ _)
        (nodup_filter_map_fst _ _ hnd)
    · intro m hm
      rw [hr] at hm
      exact dictGet_of_mem_unassigned _ m hnd (mem_pySlice _ _ _ hm)

/-- Witness for C4 at the concrete trace `sampleAllocDelOps`. -/
theorem pool_bound_and_exclusive_witness :
    sampleAllocDelOps.all opAllocDel = true
    ∧ (numNonFree (runOps freshStarted sampleAllocDelOps) ≤ 25
        ∧ (get_assigned_nodes (runOps freshStarted sampleAllocDelOps)).length ≤ 25
        ∧ (tableKeys (nodesOf (runOps freshStarted sampleAllocDelOps))).Nodup
        ∧ ∀ (actOk : Bool) (num_nodes : Int) (task_name : String)
            (s1 : ClusterManagerState) (r : List String),
            allocate_n_nodes_to_job actOk ⟨num_nodes, task_name⟩
                (runOps freshStarted sampleAllocDelOps) = Except.ok (s1, r) →
            r.Nodup
            ∧ ∀ m ∈ r, dictGet (nodesOf (runOps freshStarted sampleAllocDelOps)) m
                = some none) :=
  ⟨by decide, pool_bound_and_exclusive sampleAllocDelOps (by decide)⟩

/-- **C5**.  Whenever the free-node count is strictly below the requested
count, `allocate_n_nodes_to_job` fails with the capacity `ApplicationError`
carrying the requested and available counts, and the state is completely
unchanged (regardless of how the allocate activity would have fared).  The
`nodes_lock` is released on this path by the `async with` scoping itself. -/
theorem insufficient_capacity_rejects (s : ClusterManagerState) (actOk : Bool)
    (num_nodes : Int) (task_name : String)
    (h1 : s.cluster_started = true) (h2 : s.cluster_shutdown = false)
    (h3 : ((unassignedOf s).length : Int) < num_nodes) :
    allocate_n_nodes_to_job actOk ⟨num_nodes, task_name⟩ s
        = Except.error
            (UpdateError.insufficientCapacity num_nodes (unassignedOf s).length)
    ∧ applyOp s (ClusterOp.allocate actOk num_nodes task_name) = s := by
  have hE : allocate_n_nodes_to_job actOk ⟨num_nodes, task_name⟩ s
      = Except.error
          (UpdateError.insufficientCapacity num_nodes (unassignedOf s).length) := by
    simp [allocate_n_nodes_to_job, h2, h3]
  refine ⟨hE, ?_⟩
  simp only [applyOp, h1, if_true, hE]

/-- Witness for C5: requesting 26 of the 25 fresh nodes. -/
theorem insufficient_capacity_rejects_witness :
    (freshStarted.cluster_started = true ∧ freshStarted.cluster_shutdown = false
      ∧ ((unassignedOf freshStarted).length : Int) < 26)
    ∧ (allocate_n_nodes_to_job true ⟨26, "job"⟩ freshStarted
          = Except.error
              (UpdateError.insufficientCapacity 26 (unassignedOf freshStarted).length)
        ∧ applyOp freshStarted (ClusterOp.allocate true 26 "job") = freshStarted) :=
  ⟨⟨by decide, by decide, by decide⟩,
    insufficient_capacity_rejects freshStarted true 26 "job"
      (by decide) (by decide) (by decide)⟩

/-- **C6**.  Once the cluster is started and the shutdown flag is set, both
update handlers fail immediately with the definitive `ApplicationError`
("Rejected") raised before the lock is even taken, and the state is left
unchanged. -/
theorem shutdown_rejects (s : ClusterManagerState) (actOk actOk2 : Bool)
    (num_nodes : Int) (task_name task_name2 : String)
    (h1 : s.cluster_started = true) (h2 : s.cluster_shutdown = true) :
    allocate_n_nodes_to_job actOk ⟨num_nodes, task_name⟩ s
        = Except.error (UpdateError.rejected
            "Cannot allocate nodes to a job: Cluster is already shut down")
    ∧ delete_job actOk2 ⟨task_name2⟩ s
        = Except.error (UpdateError.rejected
            "Cannot delete a job: Cluster is already shut down")
    ∧ applyOp s (ClusterOp.allocate actOk num_nodes task_name) = s
    ∧ applyOp s (ClusterOp.deleteJob actOk2 task_name2) = s := by
  have hA : allocate_n_nodes_to_job actOk ⟨num_nodes, task_name⟩ s
      = Except.error (UpdateError.rejected
          "Cannot allocate nodes to a job: Cluster is already shut down") := by
    simp [allocate_n_nodes_to_job, h2]
  have hD : delete_job actOk2 ⟨task_name2⟩ s
      = Except.error (UpdateError.rejected
          "Cannot delete a job: Cluster is already shut down") := by
    simp [delete_job, h2]
  refine ⟨hA, hD, ?_, ?_⟩
  · simp only [applyOp, h1, if_true, hA]
  · simp only [applyOp, h1, if_true, hD]

/-- Witness for C6 on the shut-down fresh cluster. -/
theorem shutdown_rejects_witness :
    ((shutdown_cluster freshStarted).cluster_started = true
      ∧ (shutdown_cluster freshStarted).cluster_shutdown = true)
    ∧ (allocate_n_nodes_to_job true ⟨2, "job"⟩ (shutdown_cluster freshStarted)
          = Except.error (UpdateError.rejected
              "Cannot allocate nodes to a job: Cluster is already shut down")
        ∧ delete_job true ⟨"job2"⟩ (shutdown_cluster freshStarted)
          = Except.error (UpdateError.rejected
              "Cannot delete a job: Cluster is already shut down")
        ∧ applyOp (shutdown_cluster freshStarted) (ClusterOp.allocate true 2 "job")
            = shutdown_cluster freshStarted
        ∧ applyOp (shutdown_cluster freshStarted) (ClusterOp.deleteJob true "job2")
            = shutdown_cluster freshStarted) :=
  ⟨⟨by decide, by decide⟩,
    shutdown_rejects (shutdown_cluster freshStarted) true true 2 "job" "job2"
      (by decide) (by decide)⟩

/-- **C7**.  When the allocate activity ultimately fails (after its external
retries), the handler fails with that fault and performs no mutation at all:
the raise happens inside `_allocate_nodes_to_job` before its mutation loop,
so the allocation table and `max_assigned_nodes` are exactly as before. -/
theorem activity_fault_no_mutation (s : ClusterManagerState)
    (num_nodes : Int) (task_name : String)
    (h1 : s.cluster_started = true) (h2 : s.cluster_shutdown = false)
    (h3 : ¬ ((unassignedOf s).length : Int) < num_nodes) :
    allocate_n_nodes_to_job false ⟨num_nodes, task_name⟩ s
        = Except.error UpdateError.activityFault
    ∧ applyOp s (ClusterOp.allocate false num_nodes task_name) = s := by
  have hE : allocate_n_nodes_to_job false ⟨num_nodes, task_name⟩ s
      = Except.error UpdateError.activityFault := by
    simp [allocate_n_nodes_to_job, h2, h3]
  refine ⟨hE, ?_⟩
  simp only [applyOp, h1, if_true, hE]

/-- Witness for C7: a failing allocate activity for 3 fresh nodes. -/
theorem activity_fault_no_mutation_witness :
    (freshStarted.cluster_started = true ∧ freshStarted.cluster_shutdown = false
      ∧ ¬ ((unassignedOf freshStarted).length : Int) < 3)
    ∧ (allocate_n_nodes_to_job false ⟨3, "job"⟩ freshStarted
          = Except.error UpdateError.activityFault
        ∧ applyOp freshStarted (ClusterOp.allocate false 3 "job") = freshStarted) :=
  ⟨⟨by decide, by decide, by decide⟩,
    activity_fault_no_mutation freshStarted 3 "job"
      (by decide) (by decide) (by decide)⟩

/-- **C8**.  On a started, non-shut-down cluster whose table keys are the
creation-order identities `"0" … "24"` (so table order is node-identity
order, lowest first) and which has at least `num_nodes ≥ 0` free nodes, a
successful allocation deterministically returns exactly the first
`num_nodes` entries of the free list, those nodes are pairwise distinct and
were all free, and the new table assigns exactly those nodes to the job and
leaves every other node untouched. -/
theorem allocate_selects_first_free (s : ClusterManagerState)
    (num_nodes : Int) (task_name : String)
    (h1 : s.cluster_started = true) (h2 : s.cluster_shutdown = false)
    (hkeys : tableKeys (nodesOf s) = (List.range 25).map toString)
    (h0 : 0 ≤ num_nodes)
    (hcap : num_nodes ≤ ((unassignedOf s).length : Int)) :
    ∃ s1, allocate_n_nodes_to_job true ⟨num_nodes, task_name⟩ s
        = Except.ok (s1, (unassignedOf s).take num_nodes.toNat)
      ∧ ((unassignedOf s).take num_nodes.toNat).Nodup
      ∧ (∀ m ∈ (unassignedOf s).take num_nodes.toNat,
          dictGet (nodesOf s) m = some none)
      ∧ ∀ m, dictGet (nodesOf s1) m =
          if m ∈ (unassignedOf s).take num_nodes.toNat
          then some (some task_name) else dictGet (nodesOf s) m := by
  have hnd : (tableKeys (nodesOf s)).Nodup := by
    rw [hkeys]
    decide
  have hncap : ¬ ((unassignedOf s).length : Int) < num_nodes := not_lt.2 hcap
  have hslice := pySlice_nonneg (unassignedOf s) num_nodes h0
  have hE : allocate_n_nodes_to_job true ⟨num_nodes, task_name⟩ s
      = Except.ok
          ({ s with
              nodes := some (setAll (nodesOf s)
                ((unassignedOf s).take num_nodes.toNat) (some task_name)),
              max_assigned_nodes := max s.max_assigned_nodes
                ((numNonFreeT (setAll (nodesOf s)
                  ((unassignedOf s).take num_nodes.toNat) (some task_name))) : Int) },
            (unassignedOf s).take num_nodes.toNat) := by
    simp [allocate_n_nodes_to_job, h2, hncap, hslice]
  refine ⟨_, hE, ?_, ?_, ?_⟩
  · exact List.Nodup.sublist (List.take_sublist _ _)
      (nodup_filter_map_fst _ _ hnd)
  · intro m hm
    exact dictGet_of_mem_unassigned s m hnd (List.take_subset _ _ hm)
  · intro m
    show dictGet (setAll (nodesOf s)
        ((unassignedOf s).take num_nodes.toNat) (some task_name)) m = _
    by_cases hm : m ∈ (unassignedOf s).take num_nodes.toNat
    · rw [if_pos hm, dictGet_setAll_mem _ _ _ _ hm]
    · rw [if_neg hm, dictGet_setAll_not_mem _ _ _ _ hm]

/-- Witness for C8: allocating 3 nodes of the fresh cluster. -/
theorem allocate_selects_first_free_witness :
    (freshStarted.cluster_started = true
      ∧ freshStarted.cluster_shutdown = false
      ∧ tableKeys (nodesOf freshStarted) = (List.range 25).map toString
      ∧ (0 : Int) ≤ 3 ∧ (3 : Int) ≤ ((unassignedOf freshStarted).length : Int))
    ∧ (∃ s1, allocate_n_nodes_to_job true ⟨3, "job"⟩ freshStarted
          = Except.ok (s1, (unassignedOf freshStarted).take (3 : Int).toNat)
        ∧ ((unassignedOf freshStarted).take (3 : Int).toNat).Nodup
        ∧ (∀ m ∈ (unassignedOf freshStarted).take (3 : Int).toNat,
            dictGet (nodesOf freshStarted) m = some none)
        ∧ ∀ m, dictGet (nodesOf s1) m =
            if m ∈ (unassignedOf freshStarted).take (3 : Int).toNat
            then some (some "job") else dictGet (nodesOf freshStarted) m) :=
  ⟨⟨by decide, by decide, by decide, by decide, by decide⟩,
    allocate_selects_first_free freshStarted 3 "job"
      (by decide) (by decide) (by decide) (by decide) (by decide)⟩

/-- **C9**.  `should_continue_as_new` returns `false` whenever
`nodes_lock.locked()` is true, and consequently the run-loop decision with
the lock held is never a continue-as-new checkpoint: the entity never
checkpoints while an update handler is in flight. -/
theorem no_checkpoint_while_locked (cluster_shutdown : Bool)
    (casSuggested : Bool) (max_history_length : Option Nat)
    (current_history_length : Nat) :
    should_continue_as_new true casSuggested max_history_length
        current_history_length = false
    ∧ run_loop_decision cluster_shutdown true casSuggested max_history_length
        current_history_length ≠ LoopAction.continueAsNew := by
  constructor
  · rfl
  · cases cluster_shutdown <;>
      simp [run_loop_decision, should_continue_as_new]

/-- **C10**.  With the cluster started and not shut down (and the allocate
activity succeeding), `allocate_n_nodes_to_job` with `num_nodes = 0`
succeeds, returns the empty list, and leaves the node table untouched; and
for every `num_nodes < 0` the capacity check `len(unassigned) < num_nodes`
is trivially false, so the handler *succeeds* and — by Python slice
semantics `unassigned_nodes[:num_nodes]` — assigns all free nodes except
the last `|num_nodes|` of them (in table = node-identity order) to the job,
instead of rejecting the non-positive count. -/
theorem nonpositive_count_allocates (s : ClusterManagerState)
    (task_name : String)
    (h1 : s.cluster_started = true) (h2 : s.cluster_shutdown = false) :
    (∃ s1, allocate_n_nodes_to_job true ⟨0, task_name⟩ s = Except.ok (s1, [])
        ∧ nodesOf s1 = nodesOf s)
    ∧ ∀ num_nodes : Int, num_nodes < 0 →
        ∃ s1, allocate_n_nodes_to_job true ⟨num_nodes, task_name⟩ s
            = Except.ok (s1, (unassignedOf s).take
                ((unassignedOf s).length - num_nodes.natAbs))
          ∧ ∀ m ∈ (unassignedOf s).take
                ((unassignedOf s).length - num_nodes.natAbs),
              dictGet (nodesOf s1) m = some (some task_name) := by
  constructor
  · have hncap : ¬ ((unassignedOf s).length : Int) < 0 :=
      not_lt.2 (Int.natCast_nonneg _)
    have hslice : pySlice (unassignedOf s) 0 = [] := by
      rw [pySlice_nonneg _ _ (le_refl 0)]
      rfl
    have hE : allocate_n_nodes_to_job true ⟨0, task_name⟩ s
        = Except.ok
            ({ s with
                nodes := some (setAll (nodesOf s) [] (some task_name)),
                max_assigned_nodes := max s.max_assigned_nodes
                  ((numNonFreeT (setAll (nodesOf s) [] (some task_name))) : Int) },
              []) := by
      simp [allocate_n_nodes_to_job, h2, hncap, hslice]
    exact ⟨_, hE, rfl⟩
  · intro num_nodes hneg
    have hncap : ¬ ((unassignedOf s).length : Int) < num_nodes := by
      have hge : (0 : Int) ≤ ((unassignedOf s).length : Int) :=
        Int.natCast_nonneg _
      omega
    have htn : (-num_nodes).toNat = num_nodes.natAbs := by omega
    have hslice : pySlice (unassignedOf s) num_nodes
        = (unassignedOf s).take ((unassignedOf s).length - num_nodes.natAbs) := by
      rw [pySlice_neg _ _ hneg, htn]
    have hE : allocate_n_nodes_to_job true ⟨num_nodes, task_name⟩ s
        = Except.ok
            ({ s with
                nodes := some (setAll (nodesOf s)
                  ((unassignedOf s).take
                    ((unassignedOf s).length - num_nodes.natAbs))
                  (some task_name)),
                max_assigned_nodes := max s.max_assigned_nodes
                  ((numNonFreeT (setAll (nodesOf s)
                    ((unassignedOf s).take
                      ((unassignedOf s).length - num_nodes.natAbs))
                    (some task_name))) : Int) },
              (unassignedOf s).take
                ((unassignedOf s).length - num_nodes.natAbs)) := by
      simp [allocate_n_nodes_to_job, h2, hncap, hslice]
    refine ⟨_, hE, ?_⟩
    intro m hm
    show dictGet (setAll (nodesOf s)
        ((unassignedOf s).take ((unassignedOf s).length - num_nodes.natAbs))
        (some task_name)) m = some (some task_name)
    exact dictGet_setAll_mem _ _ _ _ hm

/-- Witness for C10 at the fresh cluster (and `num_nodes = -23` for the
negative branch, which assigns the first 2 of the 25 free nodes). -/
theorem nonpositive_count_allocates_witness :
    (freshStarted.cluster_started = true
      ∧ freshStarted.cluster_shutdown = false)
    ∧ ((∃ s1, allocate_n_nodes_to_job true ⟨0, "job"⟩ freshStarted
            = Except.ok (s1, [])
          ∧ nodesOf s1 = nodesOf freshStarted)
        ∧ ∀ num_nodes : Int, num_nodes < 0 →
            ∃ s1, allocate_n_nodes_to_job true ⟨num_nodes, "job"⟩ freshStarted
                = Except.ok (s1, (unassignedOf freshStarted).take
                    ((unassignedOf freshStarted).length - num_nodes.natAbs))
              ∧ ∀ m ∈ (unassignedOf freshStarted).take
                    ((unassignedOf freshStarted).length - num_nodes.natAbs),
                  dictGet (nodesOf s1) m = some (some "job")) :=
  ⟨⟨by decide, by decide⟩,
    nonpositive_count_allocates freshStarted "job" (by decide) (by decide)⟩

/-- **C2** (code evidence).  `perform_health_checks` wraps no `try`/`except`
around its `find_bad_nodes` activity call: when the single permitted attempt
(`maximum_attempts = 1`, so the action is indeed not retried) fails, the
fault propagates out of `perform_health_checks` to its caller `run` — it is
not logged-and-discarded as the claim states.  The failed check does leave
the node table unchanged (the error is returned before any marking). -/
theorem health_check_fault_propagates (s : ClusterManagerState) :
    perform_health_checks none s = Except.error ()
    ∧ health_check_maximum_attempts = 1 := ⟨rfl, rfl⟩
